import Mathlib

/-!
Formalization of the nfl_predictor rating engine.

Tables are modelled as lists of row structures; a polars data frame's
schema is a list of column names together with a per-row partial
valuation (a null cell is Option.none).  A Python function that can
raise (via Series.item on a filtered frame with more than one row, or
via an unguarded division) is modelled with an Option result whose
none value stands for the raised exception; all other functions are
total, exactly as in the source.  Floating point arithmetic is
modelled by the rationals, and math.sqrt by Real.sqrt.
-/

namespace NFL

/-- A row of the weekly roster table ROSTERS. -/
structure RosterRow where
  team : String
  week : Int
  game_type : String
  status : String
  position : String
  full_name : String

/-- A row of the player statistics table PLAYER_STATS: the display name,
the week value (nullable), and the numeric value of each remaining column
(none models a null cell). -/
structure PlayerStatRow where
  player_display_name : String
  week : Option Int
  val : String → Option ℚ

/-- The PLAYER_STATS data frame: its schema (column names) and its rows. -/
structure PlayerStats where
  cols : List String
  rows : List PlayerStatRow

/-- A row of the team statistics table TEAM_STATS. -/
structure TeamStatRow where
  team : String
  val : String → Option ℚ

/-- The TEAM_STATS data frame: its schema (column names) and its rows. -/
structure TeamStats where
  cols : List String
  rows : List TeamStatRow

/-- polars Series.item: succeeds exactly when the series has one element,
otherwise the Python call raises (modelled by none). -/
def item {α : Type} : List α → Option α
  | [x] => some x
  | _ => none

/-- Source helper safe(value, default=0.0): replaces None with the default;
every call site uses the default 0.0. -/
def safe (value : Option ℚ) : ℚ :=
  match value with
  | none => 0
  | some v => v

/-- Source helper safe_sqrt: 0.0 for a missing or non-positive input,
otherwise the mathematical square root (math.sqrt). -/
noncomputable def safe_sqrt (x : Option ℚ) : ℝ :=
  match x with
  | none => 0
  | some v => if v ≤ 0 then 0 else Real.sqrt v

/-- polars mean over a list of non-null cell values: none on an empty
list (all cells null), otherwise the arithmetic mean. -/
def mean (l : List ℚ) : Option ℚ :=
  if l.isEmpty then none else some (l.sum / l.length)

/-- The roster filter of get_skill_players: the given team, the given
week, a regular-season game type and an active status. -/
def rosterMatch (team_abbr : String) (latest_week : Int) (r : RosterRow) : Bool :=
  r.team == team_abbr && r.week == latest_week &&
    r.game_type == "REG" && r.status == "ACT"

/-- get_skill_players: active QB, RB, WR, TE name lists for a team at the
latest (table-global maximum) week, restricted to regular-season rows. -/
def get_skill_players (rosters : List RosterRow) (team_abbr : String) :
    List String × List String × List String × List String :=
  if rosters.isEmpty then ([], [], [], [])
  else
    let latest_week := ((rosters.map (·.week)).max?).getD 0
    let team := rosters.filter (rosterMatch team_abbr latest_week)
    if team.isEmpty then ([], [], [], [])
    else
      let skill := team.filter (fun r =>
        (["QB", "RB", "WR", "TE"] : List String).contains r.position)
      ((skill.filter (fun r => r.position == "QB")).map (·.full_name),
       (skill.filter (fun r => r.position == "RB")).map (·.full_name),
       (skill.filter (fun r => r.position == "WR")).map (·.full_name),
       (skill.filter (fun r => r.position == "TE")).map (·.full_name))

/-- The rows of PLAYER_STATS matching a player display name. -/
def playerRows (ps : PlayerStats) (player : String) : List PlayerStatRow :=
  ps.rows.filter (fun r => r.player_display_name == player)

/-- get_player_stat: 0.0 for an unknown column or an unmatched player;
otherwise the single matching cell with null defaulted to 0.0.  The
Series.item call raises when several rows match (outer none). -/
def get_player_stat (ps : PlayerStats) (player column : String) : Option ℚ :=
  if ¬ ps.cols.contains column then some 0
  else
    let row := playerRows ps player
    if row.isEmpty then some 0
    else (item (row.map (fun r => r.val column))).map safe

/-- The maximum week over a list of rows, ignoring null weeks, as polars
Series.max does; none when no row has a non-null week. -/
def maxWeek (df : List PlayerStatRow) : Option Int :=
  (df.filterMap (·.week)).max?

/-- get_last3_total: 0.0 for an unknown column, an unmatched player, or an
all-null week column; otherwise the sum of the column over the player's
rows whose week is at least the player's maximum week minus 2, each null
cell counted as 0.0. -/
def get_last3_total (ps : PlayerStats) (player column : String) : ℚ :=
  if ¬ ps.cols.contains column then 0
  else
    let df := playerRows ps player
    if df.isEmpty then 0
    else
      match maxWeek df with
      | none => 0
      | some max_week =>
        let last3 := df.filter (fun r =>
          match r.week with
          | some w => decide (max_week - 2 ≤ w)
          | none => false)
        (last3.map (fun r => safe (r.val column))).sum

/-- The rows of TEAM_STATS matching a team abbreviation. -/
def teamRows (ts : TeamStats) (team_abbr : String) : List TeamStatRow :=
  ts.rows.filter (fun r => r.team == team_abbr)

/-- get_def_adjustment: 1.0 when the table is empty, the opponent has no
row, or the defensive EPA column is absent; otherwise 1 + 0.5 times the
opponent's def_epa_per_play cell with null defaulted to 0.0.  The
Series.item call raises when several rows match. -/
def get_def_adjustment (ts : TeamStats) (team_abbr : String) : Option ℚ :=
  if ts.rows.isEmpty then some 1
  else
    let row := teamRows ts team_abbr
    if row.isEmpty then some 1
    else if ¬ ts.cols.contains "def_epa_per_play" then some 1
    else
      (item (row.map (fun r => r.val "def_epa_per_play"))).map
        (fun def_epa => 1 + safe def_epa * 0.5)

/-- get_pace_adjustment: 1.0 when the pace column is absent, the team has
no row, or its seconds-per-play cell is zero or null; otherwise the league
mean seconds-per-play (over non-null cells of the whole table) divided by
the team's value.  The Series.item call raises when several rows match. -/
def get_pace_adjustment (ts : TeamStats) (team_abbr : String) : Option ℚ :=
  if ¬ ts.cols.contains "seconds_per_play" then some 1
  else
    let row := teamRows ts team_abbr
    if row.isEmpty then some 1
    else
      match item (row.map (fun r => r.val "seconds_per_play")) with
      | none => none
      | some seconds_cell =>
        match seconds_cell with
        | none => some 1
        | some seconds =>
          if seconds = 0 then some 1
          else
            match mean (ts.rows.filterMap (fun r => r.val "seconds_per_play")) with
            | none => none
            | some league_avg => some (league_avg / seconds)

/-- qb_score: none for a small sample (attempts below 20), otherwise the
weighted sum of completion percentage, yards per attempt, passing EPA, the
square root of PACR and the trailing three-week passing yards.  The outer
Option records a raise escaping from get_player_stat. -/
noncomputable def qb_score (ps : PlayerStats) (player : String) :
    Option (Option ℝ) := do
  let attempts ← get_player_stat ps player "attempts"
  if attempts < 20 then
    return none
  else
    let completions ← get_player_stat ps player "completions"
    let yards ← get_player_stat ps player "passing_yards"
    let epa ← get_player_stat ps player "passing_epa"
    let pacr ← get_player_stat ps player "pacr"
    let pass_pct : ℚ := if attempts ≠ 0 then completions / attempts else 0
    let ypa : ℚ := if attempts ≠ 0 then yards / attempts else 0
    return some ((pass_pct : ℝ) * 10 + (ypa : ℝ) * 2 + (epa : ℝ) * 0.4 +
      safe_sqrt (some pacr) * 5 +
      ((get_last3_total ps player "passing_yards" : ℚ) : ℝ) * 0.01)

/-- rb_score: none for a small sample (carries below 10), otherwise the
weighted sum of carries, yards per carry, rushing EPA and the trailing
three-week rushing yards. -/
def rb_score (ps : PlayerStats) (player : String) : Option (Option ℚ) := do
  let carries ← get_player_stat ps player "carries"
  if carries < 10 then
    return none
  else
    let yards ← get_player_stat ps player "rushing_yards"
    let epa ← get_player_stat ps player "rushing_epa"
    let ypc : ℚ := if carries ≠ 0 then yards / carries else 0
    return some (carries * 0.5 + ypc * 2 + epa * 0.4 +
      get_last3_total ps player "rushing_yards" * 0.01)

/-- rec_score: none for a small sample (receptions below 10), otherwise the
weighted sum of yards per reception, receiving EPA, WOPR and the trailing
three-week receiving yards; shared by WR and TE. -/
def rec_score (ps : PlayerStats) (player : String) : Option (Option ℚ) := do
  let receptions ← get_player_stat ps player "receptions"
  if receptions < 10 then
    return none
  else
    let yards ← get_player_stat ps player "receiving_yards"
    let epa ← get_player_stat ps player "receiving_epa"
    let wopr ← get_player_stat ps player "wopr"
    let ypr : ℚ := if receptions ≠ 0 then yards / receptions else 0
    return some (ypr * 2 + epa * 0.4 + wopr * 10 +
      get_last3_total ps player "receiving_yards" * 0.01)

/-- rb_score with its rational value injected into the reals, as consumed
by the team model accumulator. -/
noncomputable def rb_scoreR (ps : PlayerStats) (player : String) :
    Option (Option ℝ) :=
  (rb_score ps player).map (Option.map (fun q : ℚ => (q : ℝ)))

/-- rec_score with its rational value injected into the reals, as consumed
by the team model accumulator. -/
noncomputable def rec_scoreR (ps : PlayerStats) (player : String) :
    Option (Option ℝ) :=
  (rec_score ps player).map (Option.map (fun q : ℚ => (q : ℝ)))

/-- One for-loop of build_team_model: fold a list of players into the
running total, adding weight times the score whenever the score is truthy
in Python (not None and not 0.0); a raise inside a score propagates. -/
noncomputable def add_weighted_scores (score : String → Option (Option ℝ))
    (weight : ℝ) : List String → ℝ → Option ℝ
  | [], total => some total
  | p :: rest, total =>
    match score p with
    | none => none
    | some none => add_weighted_scores score weight rest total
    | some (some s) =>
      if s = 0 then add_weighted_scores score weight rest total
      else add_weighted_scores score weight rest (total + s * weight)

/-- The aggregate of build_team_model before the two multipliers: the four
position loops run in source order over an initial total of 0. -/
noncomputable def team_total_score (ps : PlayerStats)
    (qbs rbs wrs tes : List String) : Option ℝ := do
  let t1 ← add_weighted_scores (qb_score ps) 1.5 qbs 0
  let t2 ← add_weighted_scores (rb_scoreR ps) 1 rbs t1
  let t3 ← add_weighted_scores (rec_scoreR ps) 1 wrs t2
  let t4 ← add_weighted_scores (rec_scoreR ps) 0.8 tes t3
  return t4

/-- build_team_model: resolve the team's skill players, accumulate the
weighted position scores, then scale by the defensive adjustment of the
opponent and the pace adjustment of the team. -/
noncomputable def build_team_model (rosters : List RosterRow)
    (ps : PlayerStats) (ts : TeamStats)
    (team_abbr opponent_abbr : String) : Option ℝ := do
  let (qbs, rbs, wrs, tes) := get_skill_players rosters team_abbr
  let def_adj ← get_def_adjustment ts opponent_abbr
  let pace_adj ← get_pace_adjustment ts team_abbr
  let total ← team_total_score ps qbs rbs wrs tes
  return total * (def_adj : ℝ) * (pace_adj : ℝ)

/-- american_to_prob: implied probability of American odds; the source
divides without a zero guard, so odds 0 would raise in Python (here the
rational division by zero yields 0, and every theorem assumes odds ≠ 0). -/
def american_to_prob (odds : ℚ) : ℚ :=
  if odds > 0 then 100 / (odds + 100) else -odds / (-odds + 100)

/-- Modelled from the spec: the aggregate of build_team_model described as
a weighted sum over every player whose position score is present, a player
with an absent score (or a raised lookup) contributing nothing. -/
noncomputable def presentWeightedSum (score : String → Option (Option ℝ))
    (weight : ℝ) (players : List String) : ℝ :=
  (players.map (fun p =>
    match score p with
    | some (some v) => v * weight
    | _ => 0)).sum

/- Concrete fixture tables used by the witness and counterexample
theorems below. -/

/-- A player stats table whose only player has 5 season attempts. -/
def psLow : PlayerStats :=
  { cols := ["attempts"],
    rows := [{ player_display_name := "P", week := none,
               val := fun c => if c == "attempts" then some 5 else none }] }

/-- A player stats table whose only player has rows at weeks 1, 5 and 6
with passing yards 10, 20 and 40. -/
def ps356 : PlayerStats :=
  { cols := ["passing_yards"],
    rows :=
      [{ player_display_name := "P", week := some 1,
         val := fun c => if c == "passing_yards" then some 10 else none },
       { player_display_name := "P", week := some 5,
         val := fun c => if c == "passing_yards" then some 20 else none },
       { player_display_name := "P", week := some 6,
         val := fun c => if c == "passing_yards" then some 40 else none }] }

/-- A team stats row with defensive EPA per play 0.2. -/
def tsDefRow : TeamStatRow :=
  { team := "NE", val := fun c => if c == "def_epa_per_play" then some 0.2 else none }

/-- A team stats table whose only team has defensive EPA per play 0.2. -/
def tsDef : TeamStats :=
  { cols := ["team", "def_epa_per_play"], rows := [tsDefRow] }

/-- A team stats row with seconds per play 25. -/
def tsPaceRowA : TeamStatRow :=
  { team := "A", val := fun c => if c == "seconds_per_play" then some 25 else none }

/-- A team stats table with seconds per play 25 and 30, league mean 27.5. -/
def tsPace : TeamStats :=
  { cols := ["team", "seconds_per_play"],
    rows := [tsPaceRowA,
             { team := "B",
               val := fun c => if c == "seconds_per_play" then some 30 else none }] }

/-- A team stats row with seconds per play -5. -/
def tsPaceNegRowA : TeamStatRow :=
  { team := "A", val := fun c => if c == "seconds_per_play" then some (-5) else none }

/-- A team stats table with seconds per play -5 and 25, league mean 10. -/
def tsPaceNeg : TeamStats :=
  { cols := ["team", "seconds_per_play"],
    rows := [tsPaceNegRowA,
             { team := "B",
               val := fun c => if c == "seconds_per_play" then some 25 else none }] }

/-- A roster table with a single active regular-season QB at week 1. -/
def rosters1 : List RosterRow :=
  [{ team := "SEA", week := 1, game_type := "REG", status := "ACT",
     position := "QB", full_name := "Q" }]

/-- A player stats table with a single QB season row: 30 attempts, 20
completions, 300 passing yards, passing EPA 5, PACR 2, and a null week so
that there is no trailing-window data. -/
def stats1 : PlayerStats :=
  { cols := ["attempts", "completions", "passing_yards", "passing_epa", "pacr"],
    rows :=
      [{ player_display_name := "Q", week := none,
         val := fun c =>
           if c == "attempts" then some 30
           else if c == "completions" then some 20
           else if c == "passing_yards" then some 300
           else if c == "passing_epa" then some 5
           else if c == "pacr" then some 2
           else none }] }

/-- An empty team stats table, making both adjustments neutral. -/
def teamstats1 : TeamStats := { cols := [], rows := [] }

/-- A player stats table whose only player is a running back with 10
carries and -100 rushing yards, so that rb_score is present and
negative. -/
def psNeg : PlayerStats :=
  { cols := ["carries", "rushing_yards", "rushing_epa"],
    rows :=
      [{ player_display_name := "R", week := none,
         val := fun c =>
           if c == "carries" then some 10
           else if c == "rushing_yards" then some (-100)
           else if c == "rushing_epa" then some 0
           else none }] }

/-!  Theorems. -/

/-- C8: for every nonzero American odds value, american_to_prob odds
equals 100 / (odds + 100) when odds > 0 and -odds / (-odds + 100) when
odds < 0, and the result lies strictly between 0 and 1; in particular
american_to_prob 150 = 0.4 and american_to_prob (-150) = 0.6. -/
theorem american_to_prob_spec :
    (∀ odds : ℚ, odds ≠ 0 →
      (0 < odds → american_to_prob odds = 100 / (odds + 100)) ∧
      (odds < 0 → american_to_prob odds = -odds / (-odds + 100)) ∧
      0 < american_to_prob odds ∧ american_to_prob odds < 1) ∧
    american_to_prob 150 = 0.4 ∧ american_to_prob (-150) = 0.6 := by
  refine ⟨fun odds h0 => ?_, by unfold american_to_prob; norm_num, by unfold american_to_prob; norm_num⟩
  rcases h0.lt_or_lt with hneg | hpos
  · have hif : american_to_prob odds = -odds / (-odds + 100) := by
      unfold american_to_prob
      rw [if_neg (by linarith)]
    refine ⟨fun h => absurd h (by linarith), fun _ => hif, ?_, ?_⟩
    · rw [hif]; exact div_pos (by linarith) (by linarith)
    · rw [hif, div_lt_one (by linarith)]; linarith
  · have hif : american_to_prob odds = 100 / (odds + 100) := by
      unfold american_to_prob
      rw [if_pos hpos]
    refine ⟨fun _ => hif, fun h => absurd h (by linarith), ?_, ?_⟩
    · rw [hif]; exact div_pos (by norm_num) (by linarith)
    · rw [hif, div_lt_one (by linarith)]; linarith

/-- Witness for C8 at odds 150 and -150. -/
theorem american_to_prob_spec_witness :
    american_to_prob 150 = 0.4 ∧ 0 < american_to_prob (-150) :=
  ⟨american_to_prob_spec.2.1,
   (american_to_prob_spec.1 (-150) (by norm_num)).2.2.1⟩

/-- C2 counterexample: the odds pair (-1, 1) is nonzero and increasing,
yet the implied probability of -1 is not larger than that of 1, so the
implied probability is not monotone over all nonzero odds pairs. -/
theorem american_to_prob_monotone_counterexample :
    (-1 : ℚ) ≠ 0 ∧ (1 : ℚ) ≠ 0 ∧ (-1 : ℚ) < 1 ∧
    ¬ (american_to_prob 1 < american_to_prob (-1)) := by
  unfold american_to_prob
  norm_num

/-- C2 (amended): for odds o1 < o2 of the same sign (both positive or
both negative), american_to_prob o1 > american_to_prob o2. -/
theorem american_to_prob_strict_anti_same_sign (o1 o2 : ℚ) (h12 : o1 < o2)
    (hsign : 0 < o1 ∨ o2 < 0) :
    american_to_prob o2 < american_to_prob o1 := by
  unfold american_to_prob
  rcases hsign with h1 | h2
  · rw [if_pos (show o1 > 0 from h1), if_pos (show o2 > 0 from h1.trans h12)]
    rw [div_lt_div_iff₀ (by linarith) (by linarith)]
    nlinarith
  · rw [if_neg (by linarith : ¬ o1 > 0), if_neg (by linarith : ¬ o2 > 0)]
    rw [div_lt_div_iff₀ (by linarith) (by linarith)]
    nlinarith

/-- Witness for the amended C2 at odds 100 and 150. -/
theorem american_to_prob_strict_anti_witness :
    american_to_prob 150 < american_to_prob 100 :=
  american_to_prob_strict_anti_same_sign 100 150 (by norm_num)
    (Or.inl (by norm_num))

/-- C9: the square-root helper is total; a missing or non-positive input
yields 0.0, and a positive input yields the mathematical square root
(nonnegative, and squaring it recovers the input). -/
theorem safe_sqrt_spec :
    safe_sqrt none = 0 ∧
    (∀ x : ℚ, x ≤ 0 → safe_sqrt (some x) = 0) ∧
    (∀ x : ℚ, 0 < x → safe_sqrt (some x) = Real.sqrt (x : ℝ) ∧
      0 ≤ safe_sqrt (some x) ∧ safe_sqrt (some x) ^ 2 = (x : ℝ)) := by
  refine ⟨rfl, fun x hx => by simp [safe_sqrt, hx], fun x hx => ?_⟩
  have h : safe_sqrt (some x) = Real.sqrt (x : ℝ) := by
    simp [safe_sqrt, not_le.mpr hx]
  refine ⟨h, ?_, ?_⟩
  · rw [h]; exact Real.sqrt_nonneg _
  · rw [h, Real.sq_sqrt (by exact_mod_cast hx.le)]

/-- Witness for C9 at inputs -1 and 4. -/
theorem safe_sqrt_spec_witness :
    safe_sqrt (some (-1)) = 0 ∧ safe_sqrt (some 4) ^ 2 = ((4 : ℚ) : ℝ) :=
  ⟨safe_sqrt_spec.2.1 (-1) (by norm_num),
   (safe_sqrt_spec.2.2 4 (by norm_num)).2.2⟩

/-- C6: whenever the season attempts value returned by get_player_stat is
strictly below 20, qb_score returns no score, whatever the player's other
statistics are. -/
theorem qb_score_absent_of_low_attempts (ps : PlayerStats) (p : String)
    (a : ℚ) (ha : get_player_stat ps p "attempts" = some a) (hlt : a < 20) :
    qb_score ps p = some none := by
  unfold qb_score
  rw [ha]
  simp [hlt]

/-- Witness for C6: a player with 5 season attempts. -/
theorem qb_score_absent_witness : qb_score psLow "P" = some none :=
  qb_score_absent_of_low_attempts psLow "P" 5 rfl (by norm_num)

/-- C4: the defensive adjustment is 1.0 when the team table is empty, the
opponent has no row, or the defensive EPA column is absent; otherwise
(with the opponent's unique row) it is 1 + 0.5 times the opponent's
def_epa_per_play with null defaulted to 0.0, with no clamping. -/
theorem get_def_adjustment_spec (ts : TeamStats) (opponent : String) :
    ((ts.rows = [] ∨ teamRows ts opponent = [] ∨
        ¬ ts.cols.contains "def_epa_per_play") →
      get_def_adjustment ts opponent = some 1) ∧
    (∀ r : TeamStatRow, ts.cols.contains "def_epa_per_play" →
      teamRows ts opponent = [r] →
      get_def_adjustment ts opponent =
        some (1 + safe (r.val "def_epa_per_play") * 0.5)) := by
  constructor
  · intro h
    unfold get_def_adjustment
    rcases h with h | h | h
    · simp [h]
    · simp [h]
    · by_cases h1 : ts.rows = []
      · simp [h1]
      · by_cases h2 : teamRows ts opponent = []
        · simp [h2, List.isEmpty_iff]
        · have h' : "def_epa_per_play" ∉ ts.cols := by simpa using h
          simp [h', h1, h2, List.isEmpty_iff]
  · intro r hcol hrow
    have hne : ts.rows ≠ [] := by
      intro h0
      rw [teamRows, h0] at hrow
      simp at hrow
    have hcol' : "def_epa_per_play" ∈ ts.cols := by simpa using hcol
    unfold get_def_adjustment
    simp [hrow, hcol', hne, item, List.isEmpty_iff]

/-- Witness for C4: an opponent with defensive EPA per play 0.2 gets the
multiplier 1.1. -/
theorem get_def_adjustment_witness : get_def_adjustment tsDef "NE" = some 1.1 := by
  have h := (get_def_adjustment_spec tsDef "NE").2 tsDefRow rfl rfl
  rw [h]
  norm_num [tsDefRow, safe]

/-- C5 counterexample: in a table with seconds per play -5 and 25 the
league mean is 10; team A's value -5 is below the mean, yet its pace
multiplier is -2, which is not greater than 1. -/
theorem get_pace_adjustment_below_mean_counterexample :
    mean (tsPaceNeg.rows.filterMap (fun row => row.val "seconds_per_play")) =
      some 10 ∧
    ((-5 : ℚ) < 10) ∧
    get_pace_adjustment tsPaceNeg "A" = some (-2) ∧
    ¬ (1 < (-2 : ℚ)) := by
  have hlist : tsPaceNeg.rows.filterMap (fun row => row.val "seconds_per_play") =
      [-5, 25] := rfl
  have hmean : mean (tsPaceNeg.rows.filterMap
      (fun row => row.val "seconds_per_play")) = some 10 := by
    rw [hlist]
    norm_num [mean]
  have hrowA : teamRows tsPaceNeg "A" = [tsPaceNegRowA] := rfl
  refine ⟨hmean, by norm_num, ?_, by norm_num⟩
  unfold get_pace_adjustment
  simp only [hrowA, hmean]
  norm_num [tsPaceNeg, tsPaceNegRowA, item]

/-- C5 (amended): the pace adjustment is 1.0 when the pace column is
absent, the team has no row, or its seconds-per-play cell is zero or
null; otherwise (with the team's unique row) it is the league mean of the
non-null seconds-per-play cells divided by the team's value, and a team
whose positive seconds-per-play lies below the league mean gets a
multiplier greater than 1. -/
theorem get_pace_adjustment_spec (ts : TeamStats) (team : String) :
    ((¬ ts.cols.contains "seconds_per_play" ∨ teamRows ts team = []) →
      get_pace_adjustment ts team = some 1) ∧
    (∀ r : TeamStatRow, ts.cols.contains "seconds_per_play" →
      teamRows ts team = [r] →
      ((r.val "seconds_per_play" = none ∨ r.val "seconds_per_play" = some 0) →
        get_pace_adjustment ts team = some 1) ∧
      (∀ s m : ℚ, r.val "seconds_per_play" = some s → s ≠ 0 →
        mean (ts.rows.filterMap (fun row => row.val "seconds_per_play")) =
          some m →
        get_pace_adjustment ts team = some (m / s) ∧
        (0 < s → s < m → 1 < m / s))) := by
  constructor
  · intro h
    unfold get_pace_adjustment
    rcases h with h | h
    · have h' : "seconds_per_play" ∉ ts.cols := by simpa using h
      simp [h']
    · by_cases h1 : ts.cols.contains "seconds_per_play"
      · simp [h, h1, List.isEmpty_iff]
      · have h1' : "seconds_per_play" ∉ ts.cols := by simpa using h1
        simp [h1']
  · intro r hcol hrow
    have hcol' : "seconds_per_play" ∈ ts.cols := by simpa using hcol
    constructor
    · intro hcell
      unfold get_pace_adjustment
      rcases hcell with h | h
      · simp [hrow, hcol', item, h, List.isEmpty_iff]
      · simp [hrow, hcol', item, h, List.isEmpty_iff]
    · intro s m hs hs0 hm
      constructor
      · unfold get_pace_adjustment
        simp [hrow, hcol', item, hs, hs0, hm, List.isEmpty_iff]
      · intro hpos hlt
        rw [one_lt_div hpos]
        exact hlt

/-- Witness for the amended C5: seconds per play 25 with league mean 27.5
gives the multiplier 1.1. -/
theorem get_pace_adjustment_witness :
    get_pace_adjustment tsPace "A" = some 1.1 ∧
    mean (tsPace.rows.filterMap (fun row => row.val "seconds_per_play")) =
      some 27.5 := by
  have hm : mean (tsPace.rows.filterMap (fun row => row.val "seconds_per_play")) =
      some 27.5 := by
    have hlist : tsPace.rows.filterMap (fun row => row.val "seconds_per_play") =
        [25, 30] := rfl
    rw [hlist]
    norm_num [mean]
  have h := (((get_pace_adjustment_spec tsPace "A").2 tsPaceRowA rfl rfl).2
    25 27.5 rfl (by norm_num) hm).1
  refine ⟨?_, hm⟩
  rw [h]
  norm_num

/-- C3: the trailing-window sum is 0.0 for an unknown column or a player
without rows; otherwise, with m the player's maximum (non-null) week, it
sums the column, null defaulted to 0.0, over exactly the player's rows
whose week is at least m - 2; m bounds every row week and is attained. -/
theorem get_last3_total_spec (ps : PlayerStats) (player column : String) :
    (¬ ps.cols.contains column → get_last3_total ps player column = 0) ∧
    (playerRows ps player = [] → get_last3_total ps player column = 0) ∧
    (∀ m : Int, ps.cols.contains column →
      maxWeek (playerRows ps player) = some m →
      (∀ r ∈ playerRows ps player, ∀ w : Int, r.week = some w → w ≤ m) ∧
      (∃ r ∈ playerRows ps player, r.week = some m) ∧
      get_last3_total ps player column =
        (((playerRows ps player).filter (fun r =>
            match r.week with
            | some w => decide (m - 2 ≤ w)
            | none => false)).map (fun r => safe (r.val column))).sum) := by
  refine ⟨?_, ?_, ?_⟩
  · intro h
    have h' : column ∉ ps.cols := by simpa using h
    simp [get_last3_total, h']
  · intro h
    simp [get_last3_total, h]
  · intro m hcol hmax
    have hcol' : column ∈ ps.cols := by simpa using hcol
    have hne : playerRows ps player ≠ [] := by
      intro h0
      rw [h0] at hmax
      simp [maxWeek] at hmax
    have hmax' : ((playerRows ps player).filterMap (·.week)).max? = some m := hmax
    refine ⟨?_, ?_, ?_⟩
    · intro r hr w hw
      have hwmem : w ∈ (playerRows ps player).filterMap (·.week) :=
        List.mem_filterMap.mpr ⟨r, hr, hw⟩
      exact (List.max?_le_iff (fun _ _ _ => max_le_iff) hmax').1 le_rfl w hwmem
    · have hm : m ∈ (playerRows ps player).filterMap (·.week) :=
        List.max?_mem (fun a b => max_choice a b) hmax'
      obtain ⟨r, hr, hw⟩ := List.mem_filterMap.mp hm
      exact ⟨r, hr, hw⟩
    · unfold get_last3_total
      simp [hcol', hne, hmax, List.isEmpty_iff]

/-- Witness for C3: a player with rows at weeks 1, 5 and 6 has maximum
week 6, and the trailing sum counts only the week 5 and 6 rows: the value
is 20 + 40 = 60, the week 1 value 10 being excluded. -/
theorem get_last3_total_spec_witness :
    maxWeek (playerRows ps356 "P") = some 6 ∧
    get_last3_total ps356 "P" "passing_yards" = 60 := by
  have hmax : maxWeek (playerRows ps356 "P") = some 6 := by decide
  have h := (get_last3_total_spec ps356 "P" "passing_yards").2.2 6 rfl hmax
  refine ⟨hmax, ?_⟩
  rw [h.2.2]
  norm_num [playerRows, ps356, safe, List.filter]

/-- The two inner filters of get_skill_players compose into one filter on
the roster match and the position. -/
theorem skill_position_filter (team_abbr : String) (lw : Int)
    (l : List RosterRow) (pos : String)
    (hpos : (["QB", "RB", "WR", "TE"] : List String).contains pos) :
    ((l.filter (rosterMatch team_abbr lw)).filter (fun r =>
        (["QB", "RB", "WR", "TE"] : List String).contains r.position)).filter
      (fun r => r.position == pos) =
    l.filter (fun r => rosterMatch team_abbr lw r && r.position == pos) := by
  rw [List.filter_filter, List.filter_filter]
  apply List.filter_congr
  intro r _
  cases hq : r.position == pos with
  | false => simp [hq]
  | true =>
    have hr : r.position = pos := eq_of_beq hq
    simp [hq, hr]
    intro
    simpa using hpos

/-- C7: get_skill_players always returns four sequences; they are all
empty when the roster table is empty and when no row matches the team at
the global maximum week with a regular-season game type and active
status; otherwise each sequence lists the full names of the matching rows
of its position, in table row order. -/
theorem get_skill_players_spec (rosters : List RosterRow) (team_abbr : String) :
    (rosters = [] → get_skill_players rosters team_abbr = ([], [], [], [])) ∧
    (∀ lw : Int, (rosters.map (·.week)).max? = some lw →
      (rosters.filter (rosterMatch team_abbr lw) = [] →
        get_skill_players rosters team_abbr = ([], [], [], [])) ∧
      (rosters.filter (rosterMatch team_abbr lw) ≠ [] →
        get_skill_players rosters team_abbr =
          ((rosters.filter (fun r =>
              rosterMatch team_abbr lw r && r.position == "QB")).map (·.full_name),
           (rosters.filter (fun r =>
              rosterMatch team_abbr lw r && r.position == "RB")).map (·.full_name),
           (rosters.filter (fun r =>
              rosterMatch team_abbr lw r && r.position == "WR")).map (·.full_name),
           (rosters.filter (fun r =>
              rosterMatch team_abbr lw r && r.position == "TE")).map (·.full_name)))) := by
  constructor
  · intro h
    simp [get_skill_players, h]
  · intro lw hlw
    have hne : rosters ≠ [] := by
      rintro rfl
      simp at hlw
    have hl : ((rosters.map (·.week)).max?).getD 0 = lw := by rw [hlw]; rfl
    constructor
    · intro hempty
      unfold get_skill_players
      simp [hne, List.isEmpty_iff, hl, hempty]
    · intro hnonempty
      unfold get_skill_players
      rw [if_neg (by simpa [List.isEmpty_iff] using hne)]
      simp only [hl]
      rw [if_neg (by simpa [List.isEmpty_iff] using hnonempty)]
      refine congrArg₂ Prod.mk ?_ (congrArg₂ Prod.mk ?_ (congrArg₂ Prod.mk ?_ ?_)) <;>
        rw [skill_position_filter _ _ _ _ (by decide)]

/-- Witness for C7: the one-row roster fixture yields the single QB and
three empty sequences. -/
theorem get_skill_players_spec_witness :
    get_skill_players rosters1 "SEA" = (["Q"], [], [], []) := by
  have hne : rosters1.filter (rosterMatch "SEA" 1) ≠ [] := by
    intro h
    have : (rosters1.filter (rosterMatch "SEA" 1)).length = 0 := by rw [h]; rfl
    simp [rosters1, rosterMatch] at this
  have h := ((get_skill_players_spec rosters1 "SEA").2 1 rfl).2 hne
  rw [h]
  rfl

/-- A successful run of one scoring loop yields the accumulator plus the
weighted sum of the present scores, zero-valued present scores included:
skipping a score that is exactly 0.0 never changes the sum. -/
theorem add_weighted_scores_eq (score : String → Option (Option ℝ)) (w : ℝ) :
    ∀ (l : List String) (acc t : ℝ),
      add_weighted_scores score w l acc = some t →
      t = acc + presentWeightedSum score w l := by
  intro l
  induction l with
  | nil =>
    intro acc t h
    simp [add_weighted_scores] at h
    simp [presentWeightedSum, ← h]
  | cons p rest ih =>
    intro acc t h
    unfold add_weighted_scores at h
    cases hs : score p with
    | none =>
      rw [hs] at h
      exact absurd h (by simp)
    | some so =>
      rw [hs] at h
      cases so with
      | none =>
        have := ih acc t h
        simp [presentWeightedSum, hs] at this ⊢
        rw [this]
      | some v =>
        have h' : (if v = 0 then add_weighted_scores score w rest acc
            else add_weighted_scores score w rest (acc + v * w)) = some t := h
        by_cases hv : v = 0
        · rw [if_pos hv] at h'
          have := ih acc t h'
          simp [presentWeightedSum, hs, hv] at this ⊢
          rw [this]
        · rw [if_neg hv] at h'
          have := ih (acc + v * w) t h'
          simp [presentWeightedSum, hs] at this ⊢
          rw [this]
          ring

/-- C10: a successful pre-multiplier aggregate equals the weighted sum
(QB weight 1.5, RB 1.0, WR 1.0, TE 0.8) over every player whose position
score is present, negative present scores included; the truthiness skip
of exactly-zero scores does not change the sum. -/
theorem team_total_score_spec (ps : PlayerStats) (qbs rbs wrs tes : List String)
    (t : ℝ) (h : team_total_score ps qbs rbs wrs tes = some t) :
    t = presentWeightedSum (qb_score ps) 1.5 qbs +
        presentWeightedSum (rb_scoreR ps) 1 rbs +
        presentWeightedSum (rec_scoreR ps) 1 wrs +
        presentWeightedSum (rec_scoreR ps) 0.8 tes := by
  unfold team_total_score at h
  simp only [Option.bind_eq_some, Option.pure_def, Option.some.injEq, bind,
    Option.bind_eq_bind] at h
  obtain ⟨t1, h1, t2, h2, t3, h3, t4, h4, ht⟩ := h
  have e1 := add_weighted_scores_eq _ _ _ _ _ h1
  have e2 := add_weighted_scores_eq _ _ _ _ _ h2
  have e3 := add_weighted_scores_eq _ _ _ _ _ h3
  have e4 := add_weighted_scores_eq _ _ _ _ _ h4
  rw [← ht]
  rw [e4, e3, e2, e1]
  ring

/-- Witness for C10: a lone RB whose present score is -15 makes the
aggregate -15, a negative qualifying score reducing the total. -/
theorem team_total_score_spec_witness :
    team_total_score psNeg [] ["R"] [] [] = some (-15) ∧
    (-15 : ℝ) = presentWeightedSum (qb_score psNeg) 1.5 [] +
        presentWeightedSum (rb_scoreR psNeg) 1 ["R"] +
        presentWeightedSum (rec_scoreR psNeg) 1 [] +
        presentWeightedSum (rec_scoreR psNeg) 0.8 [] := by
  have hrb : rb_score psNeg "R" = some (some (-15)) := by
    have h1 : get_player_stat psNeg "R" "carries" = some 10 := rfl
    have h2 : get_player_stat psNeg "R" "rushing_yards" = some (-100) := rfl
    have h3 : get_player_stat psNeg "R" "rushing_epa" = some 0 := rfl
    have h4 : get_last3_total psNeg "R" "rushing_yards" = 0 := rfl
    unfold rb_score
    rw [h1, h2, h3]
    norm_num [h4]
  have hrbR : rb_scoreR psNeg "R" = some (some ((-15 : ℚ) : ℝ)) := by
    rw [rb_scoreR, hrb]
    rfl
  have htt : team_total_score psNeg [] ["R"] [] [] = some (-15) := by
    unfold team_total_score
    simp [add_weighted_scores, hrbR]
  exact ⟨htt, team_total_score_spec psNeg [] ["R"] [] [] (-15) htt⟩

/-- C1: on the fixture with a single active QB whose season row has 30
attempts, 20 completions, 300 passing yards, passing EPA 5, PACR 2 and no
trailing data, with both adjustments neutral, the team rating is exactly
1.5 times (20/30 times 10, plus 10 times 2, plus 5 times 0.4, plus the
square root of 2 times 5, plus 0). -/
theorem build_team_model_fixture :
    build_team_model rosters1 stats1 teamstats1 "SEA" "NE" =
      some (1.5 * (20 / 30 * 10 + 10 * 2 + 5 * 0.4 + Real.sqrt 2 * 5 + 0)) := by
  have hsq : safe_sqrt (some (2 : ℚ)) = Real.sqrt 2 := by
    rw [safe_sqrt, if_neg (by norm_num)]
    norm_num
  have hqb : qb_score stats1 "Q" =
      some (some (((20 / 30 : ℚ) : ℝ) * 10 + ((300 / 30 : ℚ) : ℝ) * 2 +
        ((5 : ℚ) : ℝ) * 0.4 + safe_sqrt (some (2 : ℚ)) * 5 +
        ((0 : ℚ) : ℝ) * 0.01)) := rfl
  have hskill : get_skill_players rosters1 "SEA" = (["Q"], [], [], []) := rfl
  have hdef : get_def_adjustment teamstats1 "NE" = some 1 := rfl
  have hpace : get_pace_adjustment teamstats1 "SEA" = some 1 := rfl
  have hX : (((20 / 30 : ℚ) : ℝ) * 10 + ((300 / 30 : ℚ) : ℝ) * 2 +
      ((5 : ℚ) : ℝ) * 0.4 + safe_sqrt (some (2 : ℚ)) * 5 +
      ((0 : ℚ) : ℝ) * 0.01) ≠ 0 := by
    rw [hsq]
    have h2 : (0 : ℝ) ≤ Real.sqrt 2 := Real.sqrt_nonneg 2
    push_cast
    nlinarith
  have htt : team_total_score stats1 ["Q"] [] [] [] =
      some ((0 + (((20 / 30 : ℚ) : ℝ) * 10 + ((300 / 30 : ℚ) : ℝ) * 2 +
        ((5 : ℚ) : ℝ) * 0.4 + safe_sqrt (some (2 : ℚ)) * 5 +
        ((0 : ℚ) : ℝ) * 0.01) * 1.5)) := by
    unfold team_total_score
    simp [add_weighted_scores, hqb, hX]
    exact fun h => Or.inl h
  unfold build_team_model
  rw [hskill]
  simp only [hdef, hpace, htt, Option.bind_eq_bind, Option.some_bind]
  rw [hsq]
  refine congrArg some ?_
  push_cast
  ring_nf

end NFL
